import Mathlib

/-!
Verification of the manifest / synthesis / watch / broadcast core of
elm-doc-preview, shallowly embedded from `lib/elm-doc-server.ts` and `cli.js`.
Pure string manipulation is modelled on `List Char`; filesystem reads and
JSON parsing of external files are modelled as explicit environments
(`Option`-valued lookup functions, where `none` stands for a thrown
exception or a missing file).
-/

namespace ElmDocPreview

/-! ### Generic string helpers (models of JS string primitives) -/

/-- Does `hay` start with `pat`?  (Model of a JS string match at position 0.) -/
def headMatches : List Char → List Char → Bool
  | _, [] => true
  | [], _ :: _ => false
  | c :: cs, p :: ps => (c = p) && headMatches cs ps

/-- Substring containment, the model of JavaScript `String.prototype.includes`. -/
def listIncludes (hay pat : List Char) : Bool :=
  match hay with
  | [] => pat.isEmpty
  | _ :: t => headMatches hay pat || listIncludes t pat

/-- `s.includes(pat)` on Lean strings. -/
def includesStr (s pat : String) : Bool :=
  listIncludes s.data pat.data

/-- Split a character list at every occurrence of `sep`; the model of
JavaScript `String.prototype.split` with a one-character separator
(before applying a `limit`). -/
def splitOnChar (sep : Char) : List Char → List (List Char)
  | [] => [[]]
  | c :: cs =>
    if c = sep then [] :: splitOnChar sep cs
    else
      match splitOnChar sep cs with
      | [] => [[c]]
      | g :: gs => (c :: g) :: gs

/-- Value of a decimal digit string (most significant digit first). -/
def digitsToNat (ds : List Char) : Nat :=
  ds.foldl (fun n c => 10 * n + (c.toNat - 48)) 0

/-- Model of JavaScript `parseInt` on the inputs reachable here: the longest
leading run of decimal digits is converted, and `none` models `NaN` (no
leading digit). -/
def jsParseIntNat (s : List Char) : Option Nat :=
  let ds := s.takeWhile Char.isDigit
  if ds.isEmpty then none else some (digitsToNat ds)

/-! ### versionToConstraint (elm-doc-server.ts lines 402-406)

```ts
function versionToConstraint(version: string): string {
  const [major, minor, patch] = version.split(".", 3);
  const nextPatch = parseInt(patch) + 1;
  return `${major}.${minor}.${patch} <= v < ${major}.${minor}.${nextPatch}`;
}
```
A missing destructured component is JavaScript `undefined`, which prints as
`"undefined"` inside a template literal and makes `parseInt` yield `NaN`
(printed `"NaN"`); representing it by the literal string reproduces both. -/

def versionToConstraint (version : String) : String :=
  let parts := (splitOnChar '.' version.data).take 3
  let major := (parts[0]?).getD ("undefined".data)
  let minor := (parts[1]?).getD ("undefined".data)
  let patch := (parts[2]?).getD ("undefined".data)
  let nextPatch : List Char :=
    match jsParseIntNat patch with
    | some n => (toString (n + 1)).data
    | none => "NaN".data
  ⟨major ++ '.' :: minor ++ '.' :: patch ++ " <= v < ".data
    ++ major ++ '.' :: minor ++ '.' :: nextPatch⟩

/-! ### getExposedModules (elm-doc-server.ts lines 321-334) -/

/-- The `exposed-modules` manifest field: a flat list, a mapping from
category name to list, or JSON `null` / a missing field. -/
inductive ExposedModules where
  | list (ms : List String)
  | record (entries : List (String × List String))
  | null
deriving DecidableEq, Repr

/-- Normalization of `exposed-modules`: a flat list is kept, the values of a
categorized record are concatenated in order, anything falsy becomes `[]`. -/
def getExposedModules : ExposedModules → List String
  | ExposedModules.null => []
  | ExposedModules.list ms => ms
  | ExposedModules.record es => es.foldl (fun acc e => acc ++ e.2) []

/-! ### Manifests (elm-doc-server.ts lines 32-46, 115-165)

A manifest is a parsed JSON object; optional fields are `Option` (where
`none` models an absent key).  The filesystem is an environment mapping a
path to `none` (read throws: missing file) or `some none` (the file exists
but `JSON.parse` throws) or `some (some m)` (the file parses to `m`). -/

/-- The fields of an `elm.json` / `elm-application.json` object that this
core reads or writes. -/
structure ManifestObj where
  type : Option String := none
  name : Option String := none
  summary : Option String := none
  license : Option String := none
  version : Option String := none
  exposedModules : Option ExposedModules := none
  elmVersion : Option String := none
  sourceDirectories : Option (List String) := none
  timestamp : Option Nat := none
deriving DecidableEq, Repr

/-- `Object.assign(base, override)`: every key present in `override`
replaces the corresponding key of `base`. -/
def mergeManifest (base override : ManifestObj) : ManifestObj where
  type := override.type <|> base.type
  name := override.name <|> base.name
  summary := override.summary <|> base.summary
  license := override.license <|> base.license
  version := override.version <|> base.version
  exposedModules := override.exposedModules <|> base.exposedModules
  elmVersion := override.elmVersion <|> base.elmVersion
  sourceDirectories := override.sourceDirectories <|> base.sourceDirectories
  timestamp := override.timestamp <|> base.timestamp

/-- Filesystem environment: manifest-shaped parse results plus file
modification times in milliseconds (for the `timestamp` field). -/
structure FS where
  read : String → Option (Option ManifestObj)
  mtimeMs : String → Nat

/-- `path.dirname`, modelled on already-resolved slash-separated paths. -/
def dirname (p : String) : String :=
  let parts := splitOnChar '/' p.data
  if parts.length ≤ 1 then "." else ⟨List.intercalate ['/'] parts.dropLast⟩

/-- Path of the optional `elm-application.json` override next to a manifest. -/
def appPathFor (manifestPath : String) : String :=
  dirname manifestPath ++ "/elm-application.json"

/-- `Math.round(ms / 1000)` for a non-negative millisecond count. -/
def jsRound (ms : Nat) : Nat := (ms + 500) / 1000

/-- Defaults substituted for keys still absent after the override merge
(elm-doc-server.ts lines 152-163). -/
def applyDefaults (m : ManifestObj) : ManifestObj :=
  { m with
    name := some (m.name.getD "my/application")
    version := some (m.version.getD "1.0.0")
    summary := some (m.summary.getD "Elm application")
    license := some (m.license.getD "Fair") }

/-- `completeApplication` (elm-doc-server.ts lines 139-165): non-application
manifests are returned unchanged; otherwise the adjacent override file is
merged in when it exists and parses (a parse failure is logged and ignored),
and the four convenience fields are defaulted. -/
def completeApplication (fs : FS) (manifestPath : String) (m : ManifestObj) :
    ManifestObj :=
  if m.type = some "application" then
    applyDefaults
      (match fs.read (appPathFor manifestPath) with
       | some (some app) => mergeManifest m app
       | _ => m)
  else m

/-- `getManifestSync` (elm-doc-server.ts lines 127-137): read and parse the
manifest, attach the timestamp, complete application manifests; any thrown
error (missing file or parse failure) yields `null`. -/
def getManifestSync (fs : FS) (manifestPath : String) : Option ManifestObj :=
  match fs.read manifestPath with
  | some (some m) =>
    some (completeApplication fs manifestPath
      { m with timestamp := some (jsRound (fs.mtimeMs manifestPath)) })
  | _ => none

/-! ### Documentation build (elm-doc-server.ts lines 214-249)

The compiler subprocess and the two `JSON.parse` attempts of
`buildPackageDocs` are modelled by a `CompilerRun` record: `docsFileJson` is
the parse result of the `--docs` temporary output file and `stderrJson` the
parse result of the diagnostic stream (`none` models a parse failure or a
missing/empty file).  An application build synthesizes a temporary package
and runs the compiler there, so the environment carries one run per
directory the compiler can be pointed at. -/

/-- A minimal JSON value type for documentation artifacts and error reports. -/
inductive Json where
  | null
  | bool (b : Bool)
  | num (n : Int)
  | str (s : String)
  | arr (elems : List Json)
  | obj (fields : List (String × Json))

/-- Result of one `elm make --docs=… --report=json` invocation. -/
structure CompilerRun where
  spawnError : Option String
  stderrJson : Option Json
  docsFileJson : Option Json

/-- `buildPackageDocs` (elm-doc-server.ts lines 228-249): prefer the parsed
docs file; fall back to the parsed stderr report; fall back to `{}`.
A spawn error is only logged.  No case throws. -/
def buildPackageDocs (run : CompilerRun) : Json :=
  match run.docsFileJson with
  | some docs => docs
  | none =>
    match run.stderrJson with
    | some report => report
    | none => Json.obj []

/-- Compiler behaviour for the project directory and for the synthetic
package directory created by `buildApplicationDocs`. -/
structure CompilerEnv where
  projRun : CompilerRun
  synthRun : CompilerRun

/-- `buildDocs` (elm-doc-server.ts lines 214-225): dispatch on the manifest
type; `buildApplicationDocs` bottoms out in `buildPackageDocs` against the
synthesized package directory; unknown types produce `{}`. -/
def buildDocs (manifest : ManifestObj) (env : CompilerEnv) : Json :=
  if manifest.type = some "package" then buildPackageDocs env.projRun
  else if manifest.type = some "application" then buildPackageDocs env.synthRun
  else Json.obj []

/-! ### Broadcast messages (elm-doc-server.ts lines 618-697)

`sendReadme` / `sendManifest` / `sendDocs` each guard on
`this.manifest && this.manifest.name && this.manifest.name.includes("/")`
and then broadcast one typed message to every open client. -/

/-- A websocket broadcast message of the DocServer. -/
inductive Msg where
  | readme (author project : String) (version : Option String) (content : String)
  | manifest (author project : String) (version : Option String)
      (payload : ManifestObj)
  | docs (author project : String) (version : Option String)
      (time : Option Nat) (payload : Json)

def isReadmeMsg : Msg → Bool
  | Msg.readme .. => true
  | _ => false

def isManifestMsg : Msg → Bool
  | Msg.manifest .. => true
  | _ => false

def isDocsMsg : Msg → Bool
  | Msg.docs .. => true
  | _ => false

/-- `name.split("/", 2)` destructured into author and project. -/
def splitSlash2 (n : String) : String × String :=
  match (splitOnChar '/' n.data).take 2 with
  | [a, b] => (⟨a⟩, ⟨b⟩)
  | [a] => (⟨a⟩, "undefined")
  | _ => ("undefined", "undefined")

/-- Does a manifest pass the broadcast guard (present name containing "/")? -/
def nameOk (m : ManifestObj) : Bool :=
  match m.name with
  | some n => includesStr n "/"
  | none => false

/-- The mutable state of a `DocServer` instance that the broadcast pipeline
reads: project directory, filesystem, compiler behaviour, raw file contents
(for README reads), and the current manifest. -/
structure ServerState where
  dir : String
  fs : FS
  rawFs : String → Option String
  env : CompilerEnv
  manifest : Option ManifestObj

/-- `sendReadme` (lines 618-637): guard, then read `README.md` (a read
failure is caught and logged) and broadcast one readme message. -/
def sendReadmeMsgs (st : ServerState) : List Msg :=
  match st.manifest with
  | some m =>
    match m.name with
    | some n =>
      if includesStr n "/" then
        match st.rawFs (st.dir ++ "/README.md") with
        | some content =>
          [Msg.readme (splitSlash2 n).1 (splitSlash2 n).2 m.version content]
        | none => []
      else []
    | none => []
  | none => []

/-- `sendManifest` (lines 639-655): guard, then broadcast the manifest. -/
def sendManifestMsgs (st : ServerState) : List Msg :=
  match st.manifest with
  | some m =>
    match m.name with
    | some n =>
      if includesStr n "/" then
        [Msg.manifest (splitSlash2 n).1 (splitSlash2 n).2 m.version m]
      else []
    | none => []
  | none => []

/-- `sendDocs` (lines 657-675): guard, then run `buildDocs` and broadcast the
artifact.  The second component counts `buildDocs` invocations. -/
def sendDocsRun (st : ServerState) : List Msg × Nat :=
  match st.manifest with
  | some m =>
    match m.name with
    | some n =>
      if includesStr n "/" then
        ([Msg.docs (splitSlash2 n).1 (splitSlash2 n).2 m.version m.timestamp
            (buildDocs m st.env)], 1)
      else ([], 0)
    | none => ([], 0)
  | none => ([], 0)

/-- The body of the debounce timer callback in `onChange` (lines 603-615):
classify the changed path; a manifest change reloads the manifest, then
sends manifest and docs in that order.  Returns the broadcast messages of
the cycle, in order, together with the number of documentation builds. -/
def onChangeRun (st : ServerState) (filepath : String) : List Msg × Nat :=
  if filepath.endsWith "README.md" then (sendReadmeMsgs st, 0)
  else if filepath.endsWith ".json" then
    let st' := { st with manifest := getManifestSync st.fs "elm.json" }
    let d := sendDocsRun st'
    (sendManifestMsgs st' ++ d.1, d.2)
  else if filepath.endsWith ".elm" then sendDocsRun st
  else ([], 0)

/-- One live websocket client of the broadcast server. -/
structure Client where
  isOpen : Bool
  inbox : List Msg

/-- `broadcast` sends to a single client only when its socket is open
(elm-doc-server.ts lines 691-697). -/
def wsSend (c : Client) (m : Msg) : Client :=
  if c.isOpen then { c with inbox := c.inbox ++ [m] } else c

/-- One `broadcast(obj)` call: fan a message out to every client. -/
def broadcastMsg (clients : List Client) (m : Msg) : List Client :=
  clients.map (fun c => wsSend c m)

/-- Deliver a whole cycle's messages in order. -/
def broadcastRun (clients : List Client) (msgs : List Msg) : List Client :=
  msgs.foldl broadcastMsg clients

/-! ### The websocket connection handler

elm-doc-server.ts lines 465-470: the handler only logs the connection and
registers a logging close callback — it sends nothing to the new client.

```ts
this.app.ws("/", (socket, req) => {
  info(`  |> ${req.connection.remoteAddress} connected`);
  socket.on("close", () => { info("  |> client disconnected"); });
});
```
-/

/-- Messages the DocServer pushes to a client upon websocket connection. -/
def wsConnectMessages : List Msg := []

namespace Cli

/-! Model of the legacy `cli.js` server (lines 134-168). -/

/-- A `cli.js` websocket message; the protocol has compilation, readme and
docs messages only. -/
inductive CMsg where
  | compilation (data : String)
  | readme (data : String)
  | docs (data : String)
deriving DecidableEq, Repr

/-- `getFile` (cli.js lines 34-44): empty string for a missing file or
falsy content. -/
def getFile (fsr : String → Option String) (filepath : String) : String :=
  match fsr filepath with
  | none => ""
  | some data => if data = "" then "" else data

/-- The `app.ws` handler (cli.js lines 163-168): on connection send the
cached compilation report, then the current `README.md`, then the current
docs file. -/
def connectMsgs (fsr : String → Option String) (docsName buildReport : String) :
    List CMsg :=
  [CMsg.compilation buildReport,
   CMsg.readme (getFile fsr "README.md"),
   CMsg.docs (getFile fsr docsName)]

end Cli

/-! ### Port stubbing during synthesis (elm-doc-server.ts lines 336-369)

`importModules` reads each source file; a file whose content matches
`/^port +module /` (no `m` flag: anchored at the start of the content) has
every line matching `/^port +([^ :]+)([^\n]+)$/mg` rewritten by a callback,
and the patched content is written out; other files are linked unchanged. -/

/-- Match `/^port +([^ :]+)([^\n]+)$/` against one line, returning the two
capture groups.  `port` is followed by a greedy run of spaces, the name is
the greedy maximal run of characters that are neither space nor colon, and
the rest of the line must be non-empty; when it is empty the regex engine
backtracks, moving the final name character into the second group. -/
def parsePortLine (line : List Char) : Option (List Char × List Char) :=
  match line with
  | 'p' :: 'o' :: 'r' :: 't' :: rest =>
    let sp := rest.takeWhile (fun c => c = ' ')
    if sp.isEmpty then none
    else
      let r2 := rest.drop sp.length
      let name := r2.takeWhile (fun c => !(c = ' ' || c = ':'))
      if name.isEmpty then none
      else
        let decl := r2.drop name.length
        if decl.isEmpty then
          if 2 ≤ name.length then
            some (name.dropLast, name.drop (name.length - 1))
          else none
        else some (name, decl)
  | _ => none

/-- The replacement callback (lines 347-360): the module header keeps its
line; a declaration whose remainder mentions `Sub` becomes a no-op
subscription stub; otherwise one mentioning `Cmd` becomes a no-op command
stub; anything else records an `unmatched` warning and is kept verbatim.
The second component collects warnings. -/
def stubPortDecl (line name decl : List Char) : List Char × List String :=
  if name = "module".data then ("module ".data ++ decl, [])
  else if listIncludes decl ("Sub".data) then
    (name ++ ' ' :: decl ++ '\n' :: (name ++ " = always Sub.none\n".data), [])
  else if listIncludes decl ("Cmd".data) then
    (name ++ ' ' :: decl ++ '\n' :: (name ++ " = always Cmd.none\n".data), [])
  else (line, [⟨"unmatched ".data ++ line⟩])

/-- Process one line of a port module: lines that do not match the port
declaration regex are left untouched. -/
def stubLine (line : List Char) : List Char × List String :=
  match parsePortLine line with
  | some (name, decl) => stubPortDecl line name decl
  | none => (line, [])

/-- Does the file content match `/^port +module /` (anchored at the start)?
The pattern contains no newline, so it is decided by the first line. -/
def isPortModuleText (firstLine : List Char) : Bool :=
  match firstLine with
  | 'p' :: 'o' :: 'r' :: 't' :: rest =>
    let sp := rest.takeWhile (fun c => c = ' ')
    !sp.isEmpty && headMatches (rest.drop sp.length) ("module ".data)
  | _ => false

/-- Content-level model of `importModules` for one source file, given as its
list of lines: a port module has every line rewritten through `stubLine`
(collecting the warnings); any other file is linked, not rewritten. -/
def importModuleContent (lines : List (List Char)) :
    List (List Char) × List String :=
  match lines with
  | [] => ([], [])
  | firstLine :: _ =>
    if isPortModuleText firstLine then
      (lines.map (fun l => (stubLine l).1),
       lines.flatMap (fun l => (stubLine l).2))
    else (lines, [])

/-! ### Debounce (elm-doc-server.ts lines 597-616, cli.js lines 174-190)

`onChange` keeps a single timer handle: every change event cancels a pending
timer and arms a fresh one with a fixed 100 ms delay; the rebuild signal is
emitted when a timer fires.  For a sequence of event times (in ms, sorted),
the timer armed at `t₁` fires iff the next event arrives strictly after
`t₁ + 100`; the timer armed by the last event always fires. -/

def debounceDelay : Nat := 100

/-- Number of coalesced rebuild signals emitted for the given event times. -/
def debounceSignals : List Nat → Nat
  | [] => 0
  | [_] => 1
  | t₁ :: t₂ :: ts =>
    (if t₁ + debounceDelay < t₂ then 1 else 0) + debounceSignals (t₂ :: ts)

/-! ## Helper lemmas -/

theorem splitOnChar_ne_nil (sep : Char) (l : List Char) :
    splitOnChar sep l ≠ [] := by
  induction l with
  | nil => simp [splitOnChar]
  | cons c cs ih =>
    simp only [splitOnChar]
    split
    · simp
    · cases h : splitOnChar sep cs <;> simp

theorem splitOnChar_cons_ne (sep x : Char) (l : List Char) (hx : x ≠ sep) :
    splitOnChar sep (x :: l) =
      (x :: (splitOnChar sep l).headD []) :: (splitOnChar sep l).tail := by
  simp only [splitOnChar, if_neg hx]
  cases h : splitOnChar sep l with
  | nil => exact absurd h (splitOnChar_ne_nil sep l)
  | cons g gs => simp

theorem splitOnChar_append (sep : Char) (a rest : List Char) (ha : sep ∉ a) :
    splitOnChar sep (a ++ sep :: rest) = a :: splitOnChar sep rest := by
  induction a with
  | nil => simp [splitOnChar]
  | cons x xs ih =>
    have hx : x ≠ sep := fun h => ha (h ▸ List.mem_cons_self x xs)
    have hxs : sep ∉ xs := fun h => ha (List.mem_cons_of_mem x h)
    rw [List.cons_append, splitOnChar_cons_ne sep x _ hx, ih hxs]
    simp

theorem splitOnChar_no_sep (sep : Char) (c : List Char) (hc : sep ∉ c) :
    splitOnChar sep c = [c] := by
  induction c with
  | nil => simp [splitOnChar]
  | cons x xs ih =>
    have hx : x ≠ sep := fun h => hc (h ▸ List.mem_cons_self x xs)
    have hxs : sep ∉ xs := fun h => hc (List.mem_cons_of_mem x h)
    rw [splitOnChar_cons_ne sep x xs hx, ih hxs]
    simp

theorem takeWhile_eq_self_of (p : Char → Bool) (l : List Char)
    (h : ∀ ch ∈ l, p ch = true) : l.takeWhile p = l := by
  induction l with
  | nil => rfl
  | cons x xs ih =>
    rw [List.takeWhile_cons, h x (List.mem_cons_self x xs)]
    exact congrArg (x :: ·) (ih fun ch hch => h ch (List.mem_cons_of_mem x hch))

theorem foldl_append_eq (es : List (String × List String)) (acc : List String) :
    es.foldl (fun acc e => acc ++ e.2) acc = acc ++ (es.map Prod.snd).flatten := by
  induction es generalizing acc with
  | nil => simp
  | cons e t ih => simp [List.foldl_cons, ih]

/-! ## Claims -/

/-- C6: for every exact semantic version string `MAJOR.MINOR.PATCH` with
numeric components, `versionToConstraint` returns exactly
`"MAJOR.MINOR.PATCH <= v < MAJOR.MINOR.(PATCH+1)"`; in particular
`"2.3.4"` yields `"2.3.4 <= v < 2.3.5"`. -/
theorem c6_versionToConstraint (a b c : List Char)
    (ha : a ≠ []) (hb : b ≠ []) (hc : c ≠ [])
    (hda : ∀ ch ∈ a, ch.isDigit = true) (hdb : ∀ ch ∈ b, ch.isDigit = true)
    (hdc : ∀ ch ∈ c, ch.isDigit = true) :
    versionToConstraint ⟨a ++ '.' :: b ++ '.' :: c⟩ =
      ⟨a ++ '.' :: b ++ '.' :: c ++ " <= v < ".data
        ++ a ++ '.' :: b ++ '.' :: (toString (digitsToNat c + 1)).data⟩ ∧
    versionToConstraint "2.3.4" = "2.3.4 <= v < 2.3.5" := by
  constructor
  · have hna : '.' ∉ a := fun hmem => by simpa using hda '.' hmem
    have hnb : '.' ∉ b := fun hmem => by simpa using hdb '.' hmem
    have hnc : '.' ∉ c := fun hmem => by simpa using hdc '.' hmem
    have h1 : splitOnChar '.' (a ++ '.' :: (b ++ '.' :: c)) = [a, b, c] := by
      rw [splitOnChar_append '.' a _ hna, splitOnChar_append '.' b _ hnb,
        splitOnChar_no_sep '.' c hnc]
    have htw : c.takeWhile Char.isDigit = c := takeWhile_eq_self_of _ c hdc
    have hce : c.isEmpty = false := by
      cases c with
      | nil => exact absurd rfl hc
      | cons x xs => rfl
    have hv : (⟨a ++ '.' :: b ++ '.' :: c⟩ : String).data
        = a ++ '.' :: (b ++ '.' :: c) := by
      show a ++ '.' :: b ++ '.' :: c = _
      simp
    unfold versionToConstraint jsParseIntNat
    rw [hv, h1]
    simp [htw, hce, List.cons_append, List.append_assoc]
  · decide

/-- Witness for C6 at the concrete digit lists of `"10.0.9"`. -/
theorem c6_versionToConstraint_witness :
    versionToConstraint "10.0.9" = "10.0.9 <= v < 10.0.10" :=
  (c6_versionToConstraint ("10".data) ("0".data) ("9".data)
    (by decide) (by decide) (by decide) (by decide) (by decide) (by decide)).1

/-- C7: `getExposedModules` is idempotent (normalizing its own output, fed
back in list form, returns the same list), and the flat list form and the
categorized record form normalize to the same ordered flat list whenever
the record's values, concatenated in order, are that list. -/
theorem c7_getExposedModules (x : ExposedModules) :
    getExposedModules (ExposedModules.list (getExposedModules x)) =
      getExposedModules x ∧
    ∀ (es : List (String × List String)) (l : List String),
      (es.map Prod.snd).flatten = l →
      getExposedModules (ExposedModules.record es) =
        getExposedModules (ExposedModules.list l) := by
  constructor
  · cases x <;> rfl
  · intro es l hl
    show es.foldl (fun acc e => acc ++ e.2) [] = l
    rw [foldl_append_eq es [], List.nil_append, hl]

/-- Witness for C7: a categorized record and the equivalent flat list. -/
theorem c7_getExposedModules_witness :
    getExposedModules (ExposedModules.list (getExposedModules
      (ExposedModules.record [("Core", ["A", "B"]), ("Extra", ["C"])]))) =
      getExposedModules (ExposedModules.record
        [("Core", ["A", "B"]), ("Extra", ["C"])]) ∧
    getExposedModules (ExposedModules.record
        [("Core", ["A", "B"]), ("Extra", ["C"])]) =
      getExposedModules (ExposedModules.list ["A", "B", "C"]) :=
  ⟨(c7_getExposedModules (ExposedModules.record
      [("Core", ["A", "B"]), ("Extra", ["C"])])).1,
   (c7_getExposedModules ExposedModules.null).2
      [("Core", ["A", "B"]), ("Extra", ["C"])] ["A", "B", "C"] (by decide)⟩

theorem debounce_within (t : Nat) (ts : List Nat)
    (h : List.Chain' (fun a b => b ≤ a + debounceDelay) (t :: ts)) :
    debounceSignals (t :: ts) = 1 := by
  induction ts generalizing t with
  | nil => rfl
  | cons t₂ ts ih =>
    rw [List.chain'_cons] at h
    have hng : ¬ (t + debounceDelay < t₂) := Nat.not_lt.mpr h.1
    simp only [debounceSignals, if_neg hng, ih t₂ h.2]

theorem debounce_gaps (t : Nat) (ts : List Nat)
    (h : List.Chain' (fun a b => a + debounceDelay < b) (t :: ts)) :
    debounceSignals (t :: ts) = (t :: ts).length := by
  induction ts generalizing t with
  | nil => rfl
  | cons t₂ ts ih =>
    rw [List.chain'_cons] at h
    simp only [debounceSignals, if_pos h.1, ih t₂ h.2, List.length_cons]
    omega

/-- C2: for a non-empty sorted sequence of change-event times, the debounce
mechanism emits exactly one coalesced rebuild signal when every event
arrives within the 100 ms window of the previous one, and exactly N signals
when every consecutive gap is strictly larger than the window. -/
theorem c2_debounce (ts : List Nat) (hne : ts ≠ []) :
    (List.Chain' (fun a b => b ≤ a + debounceDelay) ts →
      debounceSignals ts = 1) ∧
    (List.Chain' (fun a b => a + debounceDelay < b) ts →
      debounceSignals ts = ts.length) := by
  cases ts with
  | nil => exact absurd rfl hne
  | cons t ts => exact ⟨debounce_within t ts, debounce_gaps t ts⟩

/-- Witness for C2: five events inside one window coalesce to one signal;
three spread-out events yield three signals. -/
theorem c2_debounce_witness :
    debounceSignals [0, 20, 40, 60, 80] = 1 ∧
    debounceSignals [0, 200, 400] = 3 :=
  ⟨(c2_debounce [0, 20, 40, 60, 80] (by decide)).1
      (by simp [List.chain'_cons, debounceDelay]),
   (c2_debounce [0, 200, 400] (by decide)).2
      (by simp [List.chain'_cons, debounceDelay])⟩

/-- C4: the documentation build never throws: `buildPackageDocs` returns
the parsed docs file when it parses, else the parsed stderr error report,
else the empty artifact `{}`; `buildDocs` routes a package build to the
project run, an application build (via the synthesized package) to the
synthetic-directory run, and anything else to `{}`. -/
theorem c4_buildDocs (run : CompilerRun) (m : ManifestObj) (env : CompilerEnv) :
    (∀ d, run.docsFileJson = some d → buildPackageDocs run = d) ∧
    (∀ e, run.docsFileJson = none → run.stderrJson = some e →
      buildPackageDocs run = e) ∧
    (run.docsFileJson = none → run.stderrJson = none →
      buildPackageDocs run = Json.obj []) ∧
    (m.type = some "package" → buildDocs m env = buildPackageDocs env.projRun) ∧
    (m.type = some "application" →
      buildDocs m env = buildPackageDocs env.synthRun) ∧
    (m.type ≠ some "package" → m.type ≠ some "application" →
      buildDocs m env = Json.obj []) := by
  refine ⟨?_, ?_, ?_, ?_, ?_, ?_⟩
  · intro d hd; simp [buildPackageDocs, hd]
  · intro e hd he; simp [buildPackageDocs, hd, he]
  · intro hd he; simp [buildPackageDocs, hd, he]
  · intro ht; simp [buildDocs, ht]
  · intro ht; simp [buildDocs, ht]
  · intro h1 h2; simp [buildDocs, h1, h2]

/-- Witness for C4: the three fallback layers at concrete compiler runs and
the dispatch at a manifest of unknown type. -/
theorem c4_buildDocs_witness :
    buildPackageDocs ⟨none, none, some (Json.str "docs")⟩ = Json.str "docs" ∧
    buildPackageDocs ⟨none, some (Json.str "report"), none⟩ =
      Json.str "report" ∧
    buildPackageDocs ⟨some "spawn failure", none, none⟩ = Json.obj [] ∧
    buildDocs { type := some "weird" }
      ⟨⟨none, none, none⟩, ⟨none, none, none⟩⟩ = Json.obj [] :=
  ⟨(c4_buildDocs ⟨none, none, some (Json.str "docs")⟩ {}
      ⟨⟨none, none, none⟩, ⟨none, none, none⟩⟩).1 (Json.str "docs") rfl,
   (c4_buildDocs ⟨none, some (Json.str "report"), none⟩ {}
      ⟨⟨none, none, none⟩, ⟨none, none, none⟩⟩).2.1 (Json.str "report") rfl rfl,
   (c4_buildDocs ⟨some "spawn failure", none, none⟩ {}
      ⟨⟨none, none, none⟩, ⟨none, none, none⟩⟩).2.2.1 rfl rfl,
   (c4_buildDocs ⟨none, none, none⟩ { type := some "weird" }
      ⟨⟨none, none, none⟩, ⟨none, none, none⟩⟩).2.2.2.2.2
      (by decide) (by decide)⟩

/-- C1 counterexample: the DocServer websocket connection handler
(elm-doc-server.ts lines 465-470) sends no message whatsoever to a newly
connected client — in particular no readme, manifest, or docs snapshot —
contradicting the claim that a full snapshot is pushed upon connection. -/
theorem c1_counterexample : ¬ ∃ m, m ∈ wsConnectMessages := by
  simp [wsConnectMessages]

/-- C1 amended: the DocServer pushes nothing on websocket connection
(clients obtain state over HTTP); the legacy cli.js server pushes exactly a
compilation message carrying the cached build report, a readme message with
the current `README.md` content, and a docs message with the current docs
file content — and its protocol has no manifest message at all. -/
theorem c1_connect_amended :
    wsConnectMessages = [] ∧
    ∀ fsr docsName buildReport,
      Cli.connectMsgs fsr docsName buildReport =
        [Cli.CMsg.compilation buildReport,
         Cli.CMsg.readme (Cli.getFile fsr "README.md"),
         Cli.CMsg.docs (Cli.getFile fsr docsName)] ∧
      (Cli.connectMsgs fsr docsName buildReport).length = 3 :=
  ⟨rfl, fun _ _ _ => ⟨rfl, rfl⟩⟩

/-- C5 counterexample: a missing primary manifest and an unparseable one
both make `getManifestSync` return `null` (modelled `none`) — the failure
is swallowed into exactly the null result the claim forbids, and NotFound
is indistinguishable from ParseError. -/
theorem c5_counterexample :
    getManifestSync ⟨fun _ => none, fun _ => 0⟩ "elm.json" = none ∧
    getManifestSync ⟨fun _ => some none, fun _ => 0⟩ "elm.json" = none :=
  ⟨rfl, rfl⟩

/-- C5 amended: when the primary manifest is missing or fails to parse, the
load operation returns `null` (no NotFound/ParseError value is surfaced and
the two causes are indistinguishable); when the primary parses, it is
completed and returned, and a parse failure of the optional adjacent
`elm-application.json` override is ignored: the base manifest still comes
back with only the defaults applied. -/
theorem c5_load_amended (fs : FS) (p : String) :
    (fs.read p = none → getManifestSync fs p = none) ∧
    (fs.read p = some none → getManifestSync fs p = none) ∧
    (∀ m, fs.read p = some (some m) →
      getManifestSync fs p = some (completeApplication fs p
        { m with timestamp := some (jsRound (fs.mtimeMs p)) })) ∧
    (∀ m, m.type = some "application" →
      fs.read (appPathFor p) = some none →
      completeApplication fs p m = applyDefaults m) := by
  refine ⟨?_, ?_, ?_, ?_⟩
  · intro h; simp [getManifestSync, h]
  · intro h; simp [getManifestSync, h]
  · intro m h; simp [getManifestSync, h]
  · intro m ht happ; simp [completeApplication, ht, happ]

/-- Witness for C5 (amended): a parseable application manifest next to an
unparseable override file is still loaded, with the defaults applied. -/
theorem c5_load_amended_witness :
    getManifestSync
      ⟨fun q => if q = "elm.json" then
          some (some { type := some "application" })
        else if q = "./elm-application.json" then some none
        else none,
       fun _ => 1500⟩ "elm.json" =
      some (completeApplication
        ⟨fun q => if q = "elm.json" then
            some (some { type := some "application" })
          else if q = "./elm-application.json" then some none
          else none,
         fun _ => 1500⟩ "elm.json"
        { type := some "application", timestamp := some 2 }) ∧
    completeApplication
      ⟨fun q => if q = "elm.json" then
          some (some { type := some "application" })
        else if q = "./elm-application.json" then some none
        else none,
       fun _ => 1500⟩ "elm.json" { type := some "application" } =
      applyDefaults { type := some "application" } :=
  ⟨(c5_load_amended
      ⟨fun q => if q = "elm.json" then
          some (some { type := some "application" })
        else if q = "./elm-application.json" then some none
        else none,
       fun _ => 1500⟩ "elm.json").2.2.1 { type := some "application" }
      (by decide),
   (c5_load_amended
      ⟨fun q => if q = "elm.json" then
          some (some { type := some "application" })
        else if q = "./elm-application.json" then some none
        else none,
       fun _ => 1500⟩ "elm.json").2.2.2 { type := some "application" }
      rfl (by decide)⟩

/-- C8: for every application manifest, after the optional override merge
the loaded manifest has `name`, `version`, `summary` and `license` all
populated, with `"my/application"`, `"1.0.0"`, `"Elm application"` and
`"Fair"` substituted for whichever were absent — never null and never an
error. -/
theorem c8_application_defaults (fs : FS) (p : String) (m : ManifestObj)
    (ht : m.type = some "application") :
    let merged := match fs.read (appPathFor p) with
                  | some (some app) => mergeManifest m app
                  | _ => m
    (completeApplication fs p m).name.isSome = true ∧
    (completeApplication fs p m).version.isSome = true ∧
    (completeApplication fs p m).summary.isSome = true ∧
    (completeApplication fs p m).license.isSome = true ∧
    (completeApplication fs p m).name =
      some (merged.name.getD "my/application") ∧
    (completeApplication fs p m).version = some (merged.version.getD "1.0.0") ∧
    (completeApplication fs p m).summary =
      some (merged.summary.getD "Elm application") ∧
    (completeApplication fs p m).license = some (merged.license.getD "Fair") := by
  intro merged
  have hm : completeApplication fs p m = applyDefaults merged := by
    simp only [completeApplication, if_pos ht, merged]
  rw [hm]
  simp [applyDefaults]

/-- Witness for C8: an application manifest with no name/version/summary/
license and no override file receives all four defaults. -/
theorem c8_application_defaults_witness :
    (completeApplication ⟨fun _ => none, fun _ => 0⟩ "elm.json"
      { type := some "application" }).name = some "my/application" ∧
    (completeApplication ⟨fun _ => none, fun _ => 0⟩ "elm.json"
      { type := some "application" }).version = some "1.0.0" ∧
    (completeApplication ⟨fun _ => none, fun _ => 0⟩ "elm.json"
      { type := some "application" }).summary = some "Elm application" ∧
    (completeApplication ⟨fun _ => none, fun _ => 0⟩ "elm.json"
      { type := some "application" }).license = some "Fair" :=
  ⟨(c8_application_defaults ⟨fun _ => none, fun _ => 0⟩ "elm.json"
      { type := some "application" } rfl).2.2.2.2.1,
   (c8_application_defaults ⟨fun _ => none, fun _ => 0⟩ "elm.json"
      { type := some "application" } rfl).2.2.2.2.2.1,
   (c8_application_defaults ⟨fun _ => none, fun _ => 0⟩ "elm.json"
      { type := some "application" } rfl).2.2.2.2.2.2.1,
   (c8_application_defaults ⟨fun _ => none, fun _ => 0⟩ "elm.json"
      { type := some "application" } rfl).2.2.2.2.2.2.2⟩

/-- C3: in a port module, every single-line port declaration whose
remainder mentions `Sub` is rewritten to a no-op subscription stub; one
mentioning `Cmd` but not `Sub` is rewritten to a no-op command stub; one
mentioning neither is kept verbatim with an `unmatched` warning recorded —
and a port-module file is processed line by line through exactly this
rewriting. -/
theorem c3_port_stubbing (line name decl : List Char)
    (hp : parsePortLine line = some (name, decl))
    (hm : name ≠ "module".data) :
    ((listIncludes decl ("Sub".data) = true →
        stubLine line =
          (name ++ ' ' :: decl ++ '\n' ::
            (name ++ " = always Sub.none\n".data), [])) ∧
     (listIncludes decl ("Sub".data) = false →
        listIncludes decl ("Cmd".data) = true →
        stubLine line =
          (name ++ ' ' :: decl ++ '\n' ::
            (name ++ " = always Cmd.none\n".data), [])) ∧
     (listIncludes decl ("Sub".data) = false →
        listIncludes decl ("Cmd".data) = false →
        stubLine line = (line, [⟨"unmatched ".data ++ line⟩]))) ∧
    ∀ firstLine rest, isPortModuleText firstLine = true →
      (importModuleContent (firstLine :: rest)).1 =
        (firstLine :: rest).map (fun l => (stubLine l).1) ∧
      (importModuleContent (firstLine :: rest)).2 =
        (firstLine :: rest).flatMap (fun l => (stubLine l).2) := by
  constructor
  · refine ⟨?_, ?_, ?_⟩
    · intro hs; simp [stubLine, hp, stubPortDecl, hm, hs]
    · intro hs hcm; simp [stubLine, hp, stubPortDecl, hm, hs, hcm]
    · intro hs hcm; simp [stubLine, hp, stubPortDecl, hm, hs, hcm]
  · intro firstLine rest hf
    constructor <;> simp [importModuleContent, hf]

/-- Witness for C3: a command port, a subscription port, and a port whose
declaration mentions neither marker. -/
theorem c3_port_stubbing_witness :
    stubLine ("port alarm: Cmd msg".data) =
      ("alarm : Cmd msg\nalarm = always Cmd.none\n".data, []) ∧
    stubLine ("port onMsg: Sub msg".data) =
      ("onMsg : Sub msg\nonMsg = always Sub.none\n".data, []) ∧
    stubLine ("port tick: xyz".data) =
      ("port tick: xyz".data, ["unmatched port tick: xyz"]) :=
  ⟨(c3_port_stubbing ("port alarm: Cmd msg".data) ("alarm".data)
      (": Cmd msg".data) (by decide) (by decide)).1.2.1 (by decide) (by decide),
   (c3_port_stubbing ("port onMsg: Sub msg".data) ("onMsg".data)
      (": Sub msg".data) (by decide) (by decide)).1.1 (by decide),
   (c3_port_stubbing ("port tick: xyz".data) ("tick".data)
      (": xyz".data) (by decide) (by decide)).1.2.2 (by decide) (by decide)⟩

theorem broadcastRun_open (msgs : List Msg) (inbox : List Msg) :
    broadcastRun [⟨true, inbox⟩] msgs = [⟨true, inbox ++ msgs⟩] := by
  induction msgs generalizing inbox with
  | nil => simp [broadcastRun]
  | cons m ms ih =>
    have hb : broadcastMsg [(⟨true, inbox⟩ : Client)] m =
        [⟨true, inbox ++ [m]⟩] := by
      simp [broadcastMsg, wsSend]
    simp only [broadcastRun, List.foldl_cons] at ih ⊢
    rw [hb, ih (inbox ++ [m])]
    simp

theorem manifest_not_docs (m : Msg) (h : isManifestMsg m = true) :
    isDocsMsg m = false := by
  cases m <;> simp_all [isManifestMsg, isDocsMsg]

theorem readme_not_docs (m : Msg) (h : isReadmeMsg m = true) :
    isDocsMsg m = false := by
  cases m <;> simp_all [isReadmeMsg, isDocsMsg]

theorem docs_not_manifest (m : Msg) (h : isDocsMsg m = true) :
    isManifestMsg m = false := by
  cases m <;> simp_all [isManifestMsg, isDocsMsg]

theorem sendReadmeMsgs_kind (st : ServerState) :
    ∀ m ∈ sendReadmeMsgs st, isReadmeMsg m = true := by
  intro m hm
  unfold sendReadmeMsgs at hm
  split at hm
  · split at hm
    · split at hm
      · split at hm
        · simp at hm; subst hm; rfl
        · simp at hm
      · simp at hm
    · simp at hm
  · simp at hm

theorem sendManifestMsgs_kind (st : ServerState) :
    ∀ m ∈ sendManifestMsgs st, isManifestMsg m = true := by
  intro m hm
  unfold sendManifestMsgs at hm
  split at hm
  · split at hm
    · split at hm
      · simp at hm; subst hm; rfl
      · simp at hm
    · simp at hm
  · simp at hm

theorem sendDocsRun_kind (st : ServerState) :
    ∀ m ∈ (sendDocsRun st).1, isDocsMsg m = true := by
  intro m hm
  unfold sendDocsRun at hm
  split at hm
  · split at hm
    · split at hm
      · simp at hm; subst hm; rfl
      · simp at hm
    · simp at hm
  · simp at hm

theorem pairwiseNoManifest (l : List Msg)
    (h : ∀ b ∈ l, isManifestMsg b = false) :
    List.Pairwise (fun a b => isDocsMsg a = true → isManifestMsg b = false)
      l := by
  induction l with
  | nil => exact List.Pairwise.nil
  | cons b t ih =>
    refine List.Pairwise.cons ?_ (ih fun x hx => h x (List.mem_cons_of_mem b hx))
    intro y hy _
    exact h y (List.mem_cons_of_mem b hy)

theorem pairwiseMD (l₁ l₂ : List Msg)
    (h₁ : ∀ a ∈ l₁, isDocsMsg a = false)
    (h₂ : ∀ b ∈ l₂, isManifestMsg b = false) :
    List.Pairwise (fun a b => isDocsMsg a = true → isManifestMsg b = false)
      (l₁ ++ l₂) := by
  induction l₁ with
  | nil => simpa using pairwiseNoManifest l₂ h₂
  | cons a t ih =>
    rw [List.cons_append]
    refine List.Pairwise.cons ?_
      (ih fun x hx => h₁ x (List.mem_cons_of_mem a hx))
    intro y _ hcon
    exact absurd hcon (by simp [h₁ a (List.mem_cons_self a t)])

theorem pairwise_cycle (st : ServerState) :
    List.Pairwise (fun a b => isDocsMsg a = true → isManifestMsg b = false)
      (sendManifestMsgs st ++ (sendDocsRun st).1) :=
  pairwiseMD _ _
    (fun a ha => manifest_not_docs a (sendManifestMsgs_kind st a ha))
    (fun b hb => docs_not_manifest b (sendDocsRun_kind st b hb))

/-- C9: in a single rebuild cycle, a client whose socket stays open receives
exactly the cycle's broadcast messages appended to its inbox in broadcast
order, and in that order no docs message ever precedes a manifest message —
so when both are broadcast, the manifest message is observed first. -/
theorem c9_manifest_before_docs (st : ServerState) (fp : String) (c : Client)
    (hc : c.isOpen = true) :
    broadcastRun [c] (onChangeRun st fp).1 =
      [⟨true, c.inbox ++ (onChangeRun st fp).1⟩] ∧
    List.Pairwise (fun a b => isDocsMsg a = true → isManifestMsg b = false)
      (onChangeRun st fp).1 := by
  constructor
  · cases c with
    | mk o inbox =>
      cases hc
      exact broadcastRun_open _ inbox
  · by_cases h1 : fp.endsWith "README.md" = true
    · have : (onChangeRun st fp).1 = sendReadmeMsgs st ++ [] := by
        simp [onChangeRun, h1]
      rw [this]
      exact pairwiseMD _ _
        (fun a ha => readme_not_docs a (sendReadmeMsgs_kind st a ha))
        (by intro b hb; simp at hb)
    · by_cases h2 : fp.endsWith ".json" = true
      · have : (onChangeRun st fp).1 =
            sendManifestMsgs
                { st with manifest := getManifestSync st.fs "elm.json" } ++
              (sendDocsRun
                { st with manifest := getManifestSync st.fs "elm.json" }).1 := by
          simp [onChangeRun, h1, h2]
        rw [this]
        exact pairwise_cycle _
      · by_cases h3 : fp.endsWith ".elm" = true
        · have : (onChangeRun st fp).1 = [] ++ (sendDocsRun st).1 := by
            simp [onChangeRun, h1, h2, h3]
          rw [this]
          exact pairwiseMD _ _ (by intro a ha; simp at ha)
            (fun b hb => docs_not_manifest b (sendDocsRun_kind st b hb))
        · have : (onChangeRun st fp).1 = [] := by
            simp [onChangeRun, h1, h2, h3]
          rw [this]
          exact List.Pairwise.nil

/-- Witness for C9: a source-file change on a package project with one open
client. -/
theorem c9_manifest_before_docs_witness :
    broadcastRun [⟨true, []⟩]
      (onChangeRun
        ⟨".", ⟨fun _ => none, fun _ => 0⟩, fun _ => none,
          ⟨⟨none, none, none⟩, ⟨none, none, none⟩⟩,
          some { type := some "package", name := some "a/b" }⟩
        "src/Main.elm").1 =
      [⟨true, [] ++
        (onChangeRun
          ⟨".", ⟨fun _ => none, fun _ => 0⟩, fun _ => none,
            ⟨⟨none, none, none⟩, ⟨none, none, none⟩⟩,
            some { type := some "package", name := some "a/b" }⟩
          "src/Main.elm").1⟩] ∧
    List.Pairwise (fun a b => isDocsMsg a = true → isManifestMsg b = false)
      (onChangeRun
        ⟨".", ⟨fun _ => none, fun _ => 0⟩, fun _ => none,
          ⟨⟨none, none, none⟩, ⟨none, none, none⟩⟩,
          some { type := some "package", name := some "a/b" }⟩
        "src/Main.elm").1 :=
  c9_manifest_before_docs
    ⟨".", ⟨fun _ => none, fun _ => 0⟩, fun _ => none,
      ⟨⟨none, none, none⟩, ⟨none, none, none⟩⟩,
      some { type := some "package", name := some "a/b" }⟩
    "src/Main.elm" ⟨true, []⟩ rfl

theorem sendReadmeMsgs_nil (st : ServerState)
    (h : ∀ mm, st.manifest = some mm → nameOk mm = false) :
    sendReadmeMsgs st = [] := by
  rcases hst : st.manifest with _ | mm
  · simp [sendReadmeMsgs, hst]
  · have hb := h mm hst
    rcases hn : mm.name with _ | n
    · simp [sendReadmeMsgs, hst, hn]
    · have hinc : includesStr n "/" = false := by simpa [nameOk, hn] using hb
      simp [sendReadmeMsgs, hst, hn, hinc]

theorem sendManifestMsgs_nil (st : ServerState)
    (h : ∀ mm, st.manifest = some mm → nameOk mm = false) :
    sendManifestMsgs st = [] := by
  rcases hst : st.manifest with _ | mm
  · simp [sendManifestMsgs, hst]
  · have hb := h mm hst
    rcases hn : mm.name with _ | n
    · simp [sendManifestMsgs, hst, hn]
    · have hinc : includesStr n "/" = false := by simpa [nameOk, hn] using hb
      simp [sendManifestMsgs, hst, hn, hinc]

theorem sendDocsRun_nil (st : ServerState)
    (h : ∀ mm, st.manifest = some mm → nameOk mm = false) :
    sendDocsRun st = ([], 0) := by
  rcases hst : st.manifest with _ | mm
  · simp [sendDocsRun, hst]
  · have hb := h mm hst
    rcases hn : mm.name with _ | n
    · simp [sendDocsRun, hst, hn]
    · have hinc : includesStr n "/" = false := by simpa [nameOk, hn] using hb
      simp [sendDocsRun, hst, hn, hinc]

/-- C10: when the current manifest's name is absent or contains no "/",
`sendReadme`, `sendManifest` and `sendDocs` broadcast nothing (and
`sendDocs` never invokes the documentation build), and a file-change event
of any kind produces no broadcast and no build as long as the manifest it
dispatches on also fails the guard. -/
theorem c10_guard_silences (st : ServerState) (mm : ManifestObj)
    (hst : st.manifest = some mm) (hbad : nameOk mm = false) :
    sendReadmeMsgs st = [] ∧ sendManifestMsgs st = [] ∧
    sendDocsRun st = ([], 0) ∧
    ∀ fp, (∀ m', getManifestSync st.fs "elm.json" = some m' →
        nameOk m' = false) →
      onChangeRun st fp = ([], 0) := by
  have hall : ∀ mm', st.manifest = some mm' → nameOk mm' = false := by
    intro mm' h'
    rw [hst] at h'
    rw [← Option.some.inj h']
    exact hbad
  refine ⟨sendReadmeMsgs_nil st hall, sendManifestMsgs_nil st hall,
    sendDocsRun_nil st hall, ?_⟩
  intro fp hload
  have hall' : ∀ mm',
      ({ st with manifest := getManifestSync st.fs "elm.json" } :
        ServerState).manifest = some mm' → nameOk mm' = false :=
    fun mm' hm' => hload mm' hm'
  by_cases h1 : fp.endsWith "README.md" = true
  · simp [onChangeRun, h1, sendReadmeMsgs_nil st hall]
  · by_cases h2 : fp.endsWith ".json" = true
    · simp [onChangeRun, h1, h2, sendManifestMsgs_nil _ hall',
        sendDocsRun_nil _ hall']
    · by_cases h3 : fp.endsWith ".elm" = true
      · simp [onChangeRun, h1, h2, h3, sendDocsRun_nil st hall]
      · simp [onChangeRun, h1, h2, h3]

/-- Witness for C10: a manifest named without any "/" silences all three
send operations. -/
theorem c10_guard_silences_witness :
    sendReadmeMsgs
      ⟨".", ⟨fun _ => none, fun _ => 0⟩, fun _ => none,
        ⟨⟨none, none, none⟩, ⟨none, none, none⟩⟩,
        some { type := some "package", name := some "noslash" }⟩ = [] ∧
    sendManifestMsgs
      ⟨".", ⟨fun _ => none, fun _ => 0⟩, fun _ => none,
        ⟨⟨none, none, none⟩, ⟨none, none, none⟩⟩,
        some { type := some "package", name := some "noslash" }⟩ = [] ∧
    sendDocsRun
      ⟨".", ⟨fun _ => none, fun _ => 0⟩, fun _ => none,
        ⟨⟨none, none, none⟩, ⟨none, none, none⟩⟩,
        some { type := some "package", name := some "noslash" }⟩ = ([], 0) :=
  ⟨(c10_guard_silences
      ⟨".", ⟨fun _ => none, fun _ => 0⟩, fun _ => none,
        ⟨⟨none, none, none⟩, ⟨none, none, none⟩⟩,
        some { type := some "package", name := some "noslash" }⟩
      { type := some "package", name := some "noslash" } rfl (by decide)).1,
   (c10_guard_silences
      ⟨".", ⟨fun _ => none, fun _ => 0⟩, fun _ => none,
        ⟨⟨none, none, none⟩, ⟨none, none, none⟩⟩,
        some { type := some "package", name := some "noslash" }⟩
      { type := some "package", name := some "noslash" } rfl (by decide)).2.1,
   (c10_guard_silences
      ⟨".", ⟨fun _ => none, fun _ => 0⟩, fun _ => none,
        ⟨⟨none, none, none⟩, ⟨none, none, none⟩⟩,
        some { type := some "package", name := some "noslash" }⟩
      { type := some "package", name := some "noslash" } rfl
      (by decide)).2.2.1⟩

end ElmDocPreview
